import Mathlib

/-!
Shallow embedding of `tictacai/logic/models.py`, the rules engine of a
tic-tac-toe game: marks, the 9-cell grid, game states, win/tie detection by
pattern matching, and immutable move application.  Strings of the Python
source are embedded as `List Char`; Python exceptions become `Except`
results; `cached_property` queries become plain functions (the underlying
value is immutable, so memoization is unobservable).
-/

namespace TicTac

/-- The 8 winning board patterns of the source (`WINNING_PATTERNS`),
each a 9-character template where `?` stands for the winning mark and `.`
matches any cell. -/
def WINNING_PATTERNS : List (List Char) :=
  [ ['?','?','?','.','.','.','.','.','.'],
    ['.','.','.','?','?','?','.','.','.'],
    ['.','.','.','.','.','.','?','?','?'],
    ['?','.','.','?','.','.','?','.','.'],
    ['.','?','.','.','?','.','.','?','.'],
    ['.','.','?','.','.','?','.','.','?'],
    ['?','.','.','.','?','.','.','.','?'],
    ['.','.','?','.','?','.','?','.','.'] ]

/-- Player marks (`Mark` enum of the source; `CROSS = "X"`, `NAUGHT = "O"`). -/
inductive Mark where
  | CROSS
  | NAUGHT
deriving DecidableEq, Repr

/-- The string value of the enum member (a `Mark` is a `str` subclass in the
source, with one-character values `"X"` / `"O"`). -/
def Mark.char : Mark → Char
  | .CROSS => 'X'
  | .NAUGHT => 'O'

/-- Faithful to the source:
`return Mark.NAUGHT if self is Mark.CROSS else Mark.NAUGHT` —
both branches yield `NAUGHT`. -/
def Mark.other (m : Mark) : Mark :=
  if m = Mark.CROSS then Mark.NAUGHT else Mark.NAUGHT

/-- The `Grid` dataclass: a cells string (list of characters). -/
structure Grid where
  cells : List Char
deriving DecidableEq, Repr

def Grid.x_count (g : Grid) : Nat := g.cells.count 'X'

def Grid.o_count (g : Grid) : Nat := g.cells.count 'O'

def Grid.empty_count (g : Grid) : Nat := g.cells.count ' '

/-- Modelled from the spec: `validate_grid` (the `validators` module is not
part of the sources at hand) — a board is malformed unless it has exactly 9
cells, each one of `empty`, `X`, `O`. -/
def validGrid (g : Grid) : Prop :=
  g.cells.length = 9 ∧ ∀ c ∈ g.cells, c = 'X' ∨ c = 'O' ∨ c = ' '

instance : DecidablePred validGrid := fun g => by
  unfold validGrid; infer_instance

/-- A game state: a grid plus the mark that moved first
(`GameState` dataclass; the Python default for `starting_mark` is `Mark("X")`). -/
structure GameState where
  grid : Grid
  starting_mark : Mark := Mark.CROSS
deriving DecidableEq, Repr

/-- `GameState.current_mark`: the starting mark when the counts agree,
otherwise `starting_mark.other` (the source's `other`, defect included). -/
def GameState.current_mark (s : GameState) : Mark :=
  if s.grid.x_count = s.grid.o_count then s.starting_mark else s.starting_mark.other

/-- `re.match` of a fully literal pattern (only `.` is special) against a
string: the pattern must match a prefix of the string. -/
def reMatch : List Char → List Char → Bool
  | [], _ => true
  | _ :: _, [] => false
  | p :: ps, c :: cs => (p == '.' || p == c) && reMatch ps cs

/-- `pattern.replace("?", mark)`. -/
def replaceQ (p : List Char) (ch : Char) : List Char :=
  p.map fun c => if c = '?' then ch else c

/-- The scan of `GameState.winner`: for each pattern, for each mark in enum
order (`CROSS` before `NAUGHT`), return the first mark whose substituted
pattern matches the cells. -/
def winnerAux (cells : List Char) : List (List Char) → Option Mark
  | [] => none
  | p :: ps =>
    if reMatch (replaceQ p Mark.CROSS.char) cells then some Mark.CROSS
    else if reMatch (replaceQ p Mark.NAUGHT.char) cells then some Mark.NAUGHT
    else winnerAux cells ps

def GameState.winner (s : GameState) : Option Mark :=
  winnerAux s.grid.cells WINNING_PATTERNS

/-- The ascending positions of `?` in a pattern: the source runs `re.finditer`
with an escaped question-mark regex over the pattern and reads `match.start()`
of each hit; positions come out in increasing order. -/
def qPositions (p : List Char) : List Nat :=
  (List.range p.length).filter fun j => p.getD j ' ' = '?'

/-- The scan of `GameState.winning_cells`: same double loop as `winner`, but
the first match returns the `?` positions of the (unsubstituted) pattern. -/
def winningCellsAux (cells : List Char) : List (List Char) → List Nat
  | [] => []
  | p :: ps =>
    if reMatch (replaceQ p Mark.CROSS.char) cells then qPositions p
    else if reMatch (replaceQ p Mark.NAUGHT.char) cells then qPositions p
    else winningCellsAux cells ps

def GameState.winning_cells (s : GameState) : List Nat :=
  winningCellsAux s.grid.cells WINNING_PATTERNS

/-- `self.winner is None and self.grid.empty_count == 0`. -/
def GameState.tie (s : GameState) : Bool :=
  s.winner.isNone && (s.grid.empty_count == 0)

/-- `self.winner is not None or self.tie`. -/
def GameState.game_over (s : GameState) : Bool :=
  !s.winner.isNone || s.tie

def GameState.game_not_started (s : GameState) : Bool :=
  s.grid.empty_count == 9

/-- The 8 winning lines as index triples (rows, columns, diagonals), in the
catalogue order of the spec — the `?` positions of the 8 patterns. -/
def LINES : List (List Nat) :=
  [[0,1,2],[3,4,5],[6,7,8],[0,3,6],[1,4,7],[2,5,8],[0,4,8],[2,4,6]]

/-- A mark fills every cell of a winning line. -/
def winsAnyLine (cells : List Char) (m : Mark) : Prop :=
  ∃ L ∈ LINES, ∀ j ∈ L, cells.getD j ' ' = m.char

instance : ∀ cells m, Decidable (winsAnyLine cells m) := fun cells m => by
  unfold winsAnyLine; infer_instance

/-- Modelled from the spec: `validate_game_state` (the `validators` module is
not part of the sources at hand) — the invariants of §3: the two counts differ
by at most one; the count of the starting mark is never behind (marks
alternate starting with `starting_mark`); at most one mark completes a line. -/
def validGameState (s : GameState) : Prop :=
  (s.grid.x_count ≤ s.grid.o_count + 1 ∧ s.grid.o_count ≤ s.grid.x_count + 1) ∧
  (s.starting_mark = Mark.CROSS → s.grid.o_count ≤ s.grid.x_count) ∧
  (s.starting_mark = Mark.NAUGHT → s.grid.x_count ≤ s.grid.o_count) ∧
  ¬(winsAnyLine s.grid.cells Mark.CROSS ∧ winsAnyLine s.grid.cells Mark.NAUGHT)

instance : DecidablePred validGameState := fun s => by
  unfold validGameState; infer_instance

/-- The errors the engine can raise: `InvalidMove` (occupied cell),
Python's `IndexError` (index out of range), `ValueError` from
`validate_grid` (malformed board) and from `validate_game_state`
(invalid position). -/
inductive Err where
  | invalidMove
  | indexError
  | malformedBoard
  | invalidPosition
deriving DecidableEq, Repr

/-- The `Move` dataclass: the mark placed, the (possibly negative) cell index
as passed in, and the states before and after. -/
structure Move where
  mark : Mark
  cell_index : Int
  before_state : GameState
  after_state : GameState
deriving DecidableEq, Repr

/-- Python string indexing `s[i]` for a string of length `n`: a direct index
for `0 ≤ i < n`, wrap-around for `-n ≤ i < 0`, `IndexError` otherwise. -/
def pyIdx (n : Nat) (i : Int) : Option Nat :=
  if 0 ≤ i ∧ i < (n : Int) then some i.toNat
  else if -(n : Int) ≤ i ∧ i < 0 then some (i + n).toNat
  else none

/-- Python slice `s[:i]` (clamped; a negative bound counts from the end). -/
def pySliceTo (l : List Char) (i : Int) : List Char :=
  l.take (if 0 ≤ i then i.toNat else (i + l.length).toNat)

/-- Python slice `s[i:]` (clamped; a negative bound counts from the end). -/
def pySliceFrom (l : List Char) (i : Int) : List Char :=
  l.drop (if 0 ≤ i then i.toNat else (i + l.length).toNat)

/-- `GameState.make_move_to`: raise `InvalidMove` when the target cell is not
empty (Python indexing raises `IndexError` first when the index is out of
range); otherwise build the after state from
`cells[:index] + current_mark + cells[index+1:]` — grid and state construction
re-validate, as `__post_init__` does in the source. -/
def GameState.make_move_to (s : GameState) (index : Int) : Except Err Move :=
  match pyIdx s.grid.cells.length index with
  | none => .error .indexError
  | some j =>
    if s.grid.cells.getD j ' ' != ' ' then .error .invalidMove
    else
      let newCells :=
        pySliceTo s.grid.cells index ++ [s.current_mark.char] ++
          pySliceFrom s.grid.cells (index + 1)
      if ¬ validGrid ⟨newCells⟩ then .error .malformedBoard
      else
        let after : GameState := ⟨⟨newCells⟩, s.starting_mark⟩
        if ¬ validGameState after then .error .invalidPosition
        else .ok { mark := s.current_mark, cell_index := index,
                   before_state := s, after_state := after }

/-- The ascending indices of whitespace cells
(`re.finditer` of a whitespace class over the cells, by `match.start()`). -/
def emptyIdxs (cells : List Char) : List Nat :=
  (List.range cells.length).filter fun j => (cells.getD j 'X').isWhitespace

/-- Apply `make_move_to` to each listed cell in order, propagating the first
exception, as the `for` loop of `possible_moves` does. -/
def movesFor (s : GameState) : List Nat → Except Err (List Move)
  | [] => .ok []
  | j :: js => do
    let mv ← s.make_move_to (j : Int)
    let rest ← movesFor s js
    pure (mv :: rest)

/-- `GameState.possible_moves`: the empty list when the game is over,
otherwise one move per empty cell in ascending index order. -/
def GameState.possible_moves (s : GameState) : Except Err (List Move) :=
  if s.game_over then .ok []
  else movesFor s (emptyIdxs s.grid.cells)

/-- The pattern catalogue zipped with the index triples its question marks
occupy: the k-th pattern wins exactly on the k-th line. -/
def PAIRS : List (List Char × List Nat) := WINNING_PATTERNS.zip LINES

/-- Either mark's substituted pattern matches the cells (the inner
`for mark in Mark` loop finds a hit on this pattern). -/
def matchesAny (cells : List Char) (p : List Char) : Bool :=
  reMatch (replaceQ p Mark.CROSS.char) cells || reMatch (replaceQ p Mark.NAUGHT.char) cells

/-- The after state that `make_move_to` builds by slicing around the target
index and inserting the current mark. -/
def afterOf (s : GameState) (index : Int) : GameState :=
  ⟨⟨pySliceTo s.grid.cells index ++ [s.current_mark.char] ++
      pySliceFrom s.grid.cells (index + 1)⟩, s.starting_mark⟩

/-- The empty board with `X` to start (scenario 1 of the spec). -/
def emptyX : GameState := ⟨⟨[' ',' ',' ',' ',' ',' ',' ',' ',' ']⟩, Mark.CROSS⟩

/-- Board `"O........"` with `O` as the starting mark: a valid position in
which it is the second player's turn. -/
def oBoard : GameState := ⟨⟨['O',' ',' ',' ',' ',' ',' ',' ',' ']⟩, Mark.NAUGHT⟩

/-- Board `"XXXOO...."` with `X` as the starting mark: a valid, terminal
position (`X` has completed the top row) with empty cells left. -/
def winX : GameState := ⟨⟨['X','X','X','O','O',' ',' ',' ',' ']⟩, Mark.CROSS⟩

end TicTac

deriving instance DecidableEq for Except

namespace TicTac

theorem length_nine {l : List Char} (h : l.length = 9) :
    ∃ c0 c1 c2 c3 c4 c5 c6 c7 c8, l = [c0,c1,c2,c3,c4,c5,c6,c7,c8] := by
  rcases l with _ | ⟨c0, _ | ⟨c1, _ | ⟨c2, _ | ⟨c3, _ | ⟨c4, _ | ⟨c5, _ | ⟨c6, _ | ⟨c7, _ | ⟨c8, _ | ⟨c9, l⟩⟩⟩⟩⟩⟩⟩⟩⟩⟩ <;>
    simp only [List.length_cons, List.length_nil] at h <;> try omega
  exact ⟨c0, c1, c2, c3, c4, c5, c6, c7, c8, rfl⟩

theorem band_true_iff (x y z : Bool) :
    (x && (y && (z && true))) = true ↔ x = true ∧ y = true ∧ z = true := by
  cases x <;> cases y <;> cases z <;> simp

theorem triple_beq (a b c ch : Char) :
    ((ch == a) = true ∧ (ch == b) = true ∧ (ch == c) = true) ↔ (a = ch ∧ b = ch ∧ c = ch) := by
  rw [beq_iff_eq, beq_iff_eq, beq_iff_eq, eq_comm, eq_comm (a := ch) (b := b), eq_comm (a := ch) (b := c)]

theorem forall_mem_triple (p : Nat → Prop) (i j k : Nat) :
    (∀ x ∈ [i,j,k], p x) ↔ p i ∧ p j ∧ p k := by
  constructor
  · intro h
    exact ⟨h i (by simp), h j (by simp), h k (by simp)⟩
  · rintro ⟨hi, hj, hk⟩ x hx
    rcases (by simpa using hx : x = i ∨ x = j ∨ x = k) with rfl | rfl | rfl <;> assumption

theorem bridge : ∀ pr ∈ PAIRS, ∀ (m : Mark) (cells : List Char), cells.length = 9 →
    (reMatch (replaceQ pr.1 m.char) cells = true ↔ ∀ j ∈ pr.2, cells.getD j ' ' = m.char) := by
  intro pr hpr m cells hlen
  obtain ⟨c0, c1, c2, c3, c4, c5, c6, c7, c8, rfl⟩ := length_nine hlen
  fin_cases hpr <;> cases m <;>
    (refine Iff.trans ?_ ((forall_mem_triple _ _ _ _).symm)
     exact Iff.trans (band_true_iff _ _ _) (triple_beq _ _ _ _))


theorem winnerAux_eq_find (cells : List Char) :
    ∀ ps : List (List Char), winnerAux cells ps =
      (ps.find? (matchesAny cells)).map
        (fun p => if reMatch (replaceQ p Mark.CROSS.char) cells then Mark.CROSS else Mark.NAUGHT) := by
  intro ps
  induction ps with
  | nil => rfl
  | cons p ps ih =>
    by_cases h1 : reMatch (replaceQ p Mark.CROSS.char) cells = true
    · simp [winnerAux, matchesAny, h1]
    · by_cases h2 : reMatch (replaceQ p Mark.NAUGHT.char) cells = true
      · simp [winnerAux, matchesAny, h1, h2]
      · simp [winnerAux, matchesAny, h1, h2, ih]

theorem winningCellsAux_eq_find (cells : List Char) :
    ∀ ps : List (List Char), winningCellsAux cells ps =
      ((ps.find? (matchesAny cells)).map qPositions).getD [] := by
  intro ps
  induction ps with
  | nil => rfl
  | cons p ps ih =>
    by_cases h1 : reMatch (replaceQ p Mark.CROSS.char) cells = true
    · simp [winningCellsAux, matchesAny, h1]
    · by_cases h2 : reMatch (replaceQ p Mark.NAUGHT.char) cells = true
      · simp [winningCellsAux, matchesAny, h1, h2]
      · simp [winningCellsAux, matchesAny, h1, h2, ih]

theorem winner_some_wins (s : GameState) (hg : validGrid s.grid) :
    ∀ m, s.winner = some m → winsAnyLine s.grid.cells m := by
  intro m hm
  unfold GameState.winner at hm
  rw [show WINNING_PATTERNS = PAIRS.map Prod.fst from rfl, winnerAux_eq_find,
    List.find?_map] at hm
  cases hfind : PAIRS.find? (matchesAny s.grid.cells ∘ Prod.fst) with
  | none => rw [hfind] at hm; simp at hm
  | some pr =>
    rw [hfind] at hm
    simp only [Option.map_map, Option.map_some', Option.some.injEq, Function.comp] at hm
    have hmem : pr ∈ PAIRS := List.mem_of_find?_eq_some hfind
    have hmatch : matchesAny s.grid.cells pr.1 = true := by
      have := List.find?_some hfind
      simpa using this
    have hL : pr.2 ∈ LINES := by
      rw [show LINES = PAIRS.map Prod.snd from rfl]
      exact List.mem_map_of_mem Prod.snd hmem
    by_cases h1 : reMatch (replaceQ pr.1 Mark.CROSS.char) s.grid.cells = true
    · rw [if_pos h1] at hm
      subst hm
      exact ⟨pr.2, hL, (bridge pr hmem Mark.CROSS _ hg.1).mp h1⟩
    · have h2 : reMatch (replaceQ pr.1 Mark.NAUGHT.char) s.grid.cells = true := by
        rcases (Bool.or_eq_true _ _).mp hmatch with h | h
        · exact absurd h h1
        · exact h
      rw [if_neg h1] at hm
      subst hm
      exact ⟨pr.2, hL, (bridge pr hmem Mark.NAUGHT _ hg.1).mp h2⟩

theorem wins_winner_ne_none (s : GameState) (hg : validGrid s.grid) (m : Mark)
    (hw : winsAnyLine s.grid.cells m) : s.winner ≠ none := by
  intro hn
  unfold GameState.winner at hn
  rw [show WINNING_PATTERNS = PAIRS.map Prod.fst from rfl, winnerAux_eq_find,
    List.find?_map] at hn
  have hnone : PAIRS.find? (matchesAny s.grid.cells ∘ Prod.fst) = none := by
    cases h : PAIRS.find? (matchesAny s.grid.cells ∘ Prod.fst) with
    | none => rfl
    | some pr => rw [h] at hn; simp at hn
  rw [List.find?_eq_none] at hnone
  obtain ⟨L, hL, hfill⟩ := hw
  rw [show LINES = PAIRS.map Prod.snd from rfl] at hL
  obtain ⟨pr, hpr, rfl⟩ := List.mem_map.mp hL
  have hmm : reMatch (replaceQ pr.1 m.char) s.grid.cells = true :=
    (bridge pr hpr m _ hg.1).mpr hfill
  have := hnone pr hpr
  simp only [Function.comp, matchesAny, Bool.or_eq_true, not_or] at this
  cases m
  · exact absurd hmm (by simpa using this.1)
  · exact absurd hmm (by simpa using this.2)

/-- C3: for every valid position, `winner` returns `some m` if and only if at
least one of the 8 fixed lines (rows, columns, diagonals) has all three of its
cells equal to `m`; it returns `none` otherwise. -/
theorem c3_winner_iff_winning_line (s : GameState) (hg : validGrid s.grid)
    (hv : validGameState s) (m : Mark) :
    s.winner = some m ↔ winsAnyLine s.grid.cells m := by
  constructor
  · exact winner_some_wins s hg m
  · intro hw
    have hne : s.winner ≠ none := wins_winner_ne_none s hg m hw
    cases hm' : s.winner with
    | none => exact absurd hm' hne
    | some m' =>
      have hw' : winsAnyLine s.grid.cells m' := winner_some_wins s hg m' hm'
      cases m <;> cases m'
      · rfl
      · exact absurd ⟨hw, hw'⟩ hv.2.2.2
      · exact absurd ⟨hw', hw⟩ hv.2.2.2
      · rfl

theorem qPositions_PAIRS : ∀ pr ∈ PAIRS, qPositions pr.1 = pr.2 := by decide

theorem snd_PAIRS_ne_nil : ∀ pr ∈ PAIRS, pr.2 ≠ [] := by decide

theorem LINES_sorted : ∀ L ∈ LINES, List.Sorted (fun a b => a < b) L := by decide

/-- C9: `winning_cells` returns the empty list exactly when `winner` is
`none`; when there is a winner it returns the cell indices of the first
winning line in catalogue order, sorted ascending, all filled by the winning
mark, and every line placed earlier in the catalogue is not winning. -/
theorem c9_winning_cells_first_line (s : GameState) (hg : validGrid s.grid) :
    (s.winning_cells = [] ↔ s.winner = none) ∧
    ∀ m, s.winner = some m →
      List.Sorted (fun a b => a < b) s.winning_cells ∧
      (∀ j ∈ s.winning_cells, s.grid.cells.getD j ' ' = m.char) ∧
      ∃ pre post, LINES = pre ++ s.winning_cells :: post ∧
        ∀ L ∈ pre, ∀ m' : Mark, ¬(∀ j ∈ L, s.grid.cells.getD j ' ' = m'.char) := by
  have key : s.winning_cells =
      ((PAIRS.find? (matchesAny s.grid.cells ∘ Prod.fst)).map
        (fun pr => qPositions pr.1)).getD [] := by
    unfold GameState.winning_cells
    rw [show WINNING_PATTERNS = PAIRS.map Prod.fst from rfl, winningCellsAux_eq_find,
      List.find?_map, Option.map_map]
    rfl
  have keyW : s.winner =
      (PAIRS.find? (matchesAny s.grid.cells ∘ Prod.fst)).map
        (fun pr => if reMatch (replaceQ pr.1 Mark.CROSS.char) s.grid.cells
          then Mark.CROSS else Mark.NAUGHT) := by
    unfold GameState.winner
    rw [show WINNING_PATTERNS = PAIRS.map Prod.fst from rfl, winnerAux_eq_find,
      List.find?_map, Option.map_map]
    rfl
  cases hfind : PAIRS.find? (matchesAny s.grid.cells ∘ Prod.fst) with
  | none =>
    rw [hfind] at key keyW
    constructor
    · rw [key, keyW]; simp
    · intro m hm; rw [keyW] at hm; simp at hm
  | some pr =>
    have hmem : pr ∈ PAIRS := List.mem_of_find?_eq_some hfind
    have hmatch : matchesAny s.grid.cells pr.1 = true := by
      have := List.find?_some hfind
      simpa using this
    have hwc : s.winning_cells = pr.2 := by
      rw [key, hfind]
      simp [qPositions_PAIRS pr hmem]
    have hL : pr.2 ∈ LINES := by
      rw [show LINES = PAIRS.map Prod.snd from rfl]
      exact List.mem_map_of_mem Prod.snd hmem
    constructor
    · rw [hwc, keyW, hfind]
      simp [snd_PAIRS_ne_nil pr hmem]
    · intro m hm
      rw [keyW, hfind] at hm
      simp only [Option.map_some', Option.some.injEq] at hm
      have hfillm : ∀ j ∈ pr.2, s.grid.cells.getD j ' ' = m.char := by
        by_cases h1 : reMatch (replaceQ pr.1 Mark.CROSS.char) s.grid.cells = true
        · rw [if_pos h1] at hm
          subst hm
          exact (bridge pr hmem Mark.CROSS _ hg.1).mp h1
        · have h2 : reMatch (replaceQ pr.1 Mark.NAUGHT.char) s.grid.cells = true := by
            rcases (Bool.or_eq_true _ _).mp hmatch with h | h
            · exact absurd h h1
            · exact h
          rw [if_neg h1] at hm
          subst hm
          exact (bridge pr hmem Mark.NAUGHT _ hg.1).mp h2
      refine ⟨?_, ?_, ?_⟩
      · rw [hwc]; exact LINES_sorted pr.2 hL
      · rw [hwc]; exact hfillm
      · obtain ⟨-, as, bs, hsplit, hprev⟩ := List.find?_eq_some.mp hfind
        refine ⟨as.map Prod.snd, bs.map Prod.snd, ?_, ?_⟩
        · rw [hwc, show LINES = PAIRS.map Prod.snd from rfl, hsplit]
          simp
        · intro L hLpre m' hfill
          obtain ⟨pr', hpr', rfl⟩ := List.mem_map.mp hLpre
          have hpr'PAIRS : pr' ∈ PAIRS := by
            rw [hsplit]
            exact List.mem_append_left _ hpr'
          have hre : reMatch (replaceQ pr'.1 m'.char) s.grid.cells = true :=
            (bridge pr' hpr'PAIRS m' _ hg.1).mpr hfill
          have hfalse := hprev pr' hpr'
          simp only [Function.comp, matchesAny, Bool.not_eq_true', Bool.or_eq_false_iff] at hfalse
          cases m'
          · rw [hre] at hfalse; simp at hfalse
          · rw [hre] at hfalse; simp at hfalse

/-- C8: `tie` is true exactly when there is no winner and no empty cell;
`game_over` equals `winner is some or tie`; and the winner case and the tie
case are mutually exclusive. -/
theorem c8_game_over_tie_exclusive (s : GameState) :
    (s.tie = true ↔ s.winner = none ∧ s.grid.empty_count = 0) ∧
    (s.game_over = true ↔ s.winner.isSome = true ∨ s.tie = true) ∧
    ¬(s.winner.isSome = true ∧ s.tie = true) := by
  cases hw : s.winner <;> simp [GameState.tie, GameState.game_over, hw]

theorem pyIdx_in_range (n : Nat) (i : Int) (h0 : 0 ≤ i) (h9 : i < (n : Int)) :
    pyIdx n i = some i.toNat := by
  unfold pyIdx
  rw [if_pos ⟨h0, h9⟩]

theorem make_move_to_none (s : GameState) (i : Int)
    (h : pyIdx s.grid.cells.length i = none) :
    s.make_move_to i = Except.error Err.indexError := by
  unfold GameState.make_move_to
  rw [h]

theorem make_move_to_some (s : GameState) (i : Int) (j : Nat)
    (h : pyIdx s.grid.cells.length i = some j) :
    s.make_move_to i =
      (if s.grid.cells.getD j ' ' != ' ' then Except.error Err.invalidMove
       else if ¬ validGrid (afterOf s i).grid then Except.error Err.malformedBoard
       else if ¬ validGameState (afterOf s i) then Except.error Err.invalidPosition
       else Except.ok { mark := s.current_mark, cell_index := i,
                        before_state := s, after_state := afterOf s i }) := by
  unfold GameState.make_move_to
  rw [h]
  rfl

theorem make_move_invalidMove_iff (s : GameState) (i : Int) (hg : validGrid s.grid)
    (h0 : 0 ≤ i) (h9 : i < 9) :
    (s.make_move_to i = Except.error Err.invalidMove ↔ s.grid.cells.getD i.toNat ' ' ≠ ' ') := by
  rw [make_move_to_some s i i.toNat (by rw [hg.1]; exact pyIdx_in_range 9 i h0 (by exact_mod_cast h9))]
  by_cases hocc : s.grid.cells.getD i.toNat ' ' = ' '
  · rw [if_neg (by simp only [bne_iff_ne, ne_eq, not_not]; exact hocc)]
    exact iff_of_false (by split_ifs <;> simp) (not_not_intro hocc)
  · rw [if_pos (bne_iff_ne.mpr hocc)]
    exact iff_of_true rfl hocc

theorem take_cons_drop_eq_set (l : List Char) (n : Nat) (ch : Char) (h : n < l.length) :
    l.take n ++ ch :: l.drop (n+1) = l.set n ch := by
  induction l generalizing n with
  | nil => simp at h
  | cons a l ih =>
    cases n with
    | zero => simp
    | succ n =>
      simp only [List.take_succ_cons, List.drop_succ_cons, List.set_cons_succ, List.cons_append,
        List.cons.injEq, true_and]
      exact ih n (by simpa using h)

/-- C6 (amended): `make_move_to` fails with an index error exactly for
indices `≥ 9` or `< -9`; indices in `[-9, -1]` are instead resolved by Python
negative indexing (see C10) and raise no index error. -/
theorem c6_index_error_out_of_bounds (s : GameState) (i : Int) (hg : validGrid s.grid)
    (h : 9 ≤ i ∨ i < -9) : s.make_move_to i = Except.error Err.indexError := by
  apply make_move_to_none
  unfold pyIdx
  rw [hg.1]
  rw [if_neg (by omega), if_neg (by omega)]

theorem afterOf_eq_set (s : GameState) (i : Int) (hg : validGrid s.grid)
    (h0 : 0 ≤ i) (h9 : i < 9) :
    afterOf s i = ⟨⟨s.grid.cells.set i.toNat s.current_mark.char⟩, s.starting_mark⟩ := by
  unfold afterOf pySliceTo pySliceFrom
  rw [if_pos h0, if_pos (by omega)]
  have h1 : (i + 1).toNat = i.toNat + 1 := by omega
  rw [h1]
  rw [show s.grid.cells.take i.toNat ++ [s.current_mark.char] ++ s.grid.cells.drop (i.toNat + 1)
      = s.grid.cells.take i.toNat ++ s.current_mark.char :: s.grid.cells.drop (i.toNat + 1) from by simp]
  rw [take_cons_drop_eq_set s.grid.cells i.toNat s.current_mark.char (by rw [hg.1]; omega)]

theorem validGrid_after (s : GameState) (i : Int) (hg : validGrid s.grid)
    (h0 : 0 ≤ i) (h9 : i < 9) : validGrid (afterOf s i).grid := by
  rw [afterOf_eq_set s i hg h0 h9]
  refine ⟨by simp [hg.1], ?_⟩
  intro c hc
  rcases List.mem_or_eq_of_mem_set hc with h | h
  · exact hg.2 c h
  · subst h
    cases s.current_mark <;> simp [Mark.char]

theorem make_move_success (s : GameState) (i : Int) (hg : validGrid s.grid)
    (h0 : 0 ≤ i) (h9 : i < 9)
    (he : s.grid.cells.getD i.toNat ' ' = ' ')
    (hv : validGameState ⟨⟨s.grid.cells.set i.toNat s.current_mark.char⟩, s.starting_mark⟩) :
    s.make_move_to i = Except.ok
      { mark := s.current_mark, cell_index := i, before_state := s,
        after_state := ⟨⟨s.grid.cells.set i.toNat s.current_mark.char⟩, s.starting_mark⟩ } := by
  rw [make_move_to_some s i i.toNat
    (by rw [hg.1]; exact pyIdx_in_range 9 i h0 (by exact_mod_cast h9))]
  rw [if_neg (by simp only [bne_iff_ne, ne_eq, not_not]; exact he)]
  rw [afterOf_eq_set s i hg h0 h9]
  rw [if_neg (not_not_intro (by
    have := validGrid_after s i hg h0 h9
    rwa [afterOf_eq_set s i hg h0 h9] at this))]
  rw [if_neg (not_not_intro hv)]

theorem make_move_neg_index (s : GameState) (i : Int) (hg : validGrid s.grid)
    (hlo : -9 ≤ i) (hhi : i ≤ -2) :
    s.make_move_to i = (s.make_move_to (i + 9)).map
      (fun mv => { mv with cell_index := i }) := by
  have hj : pyIdx s.grid.cells.length i = some (i + 9).toNat := by
    unfold pyIdx
    rw [hg.1]
    rw [if_neg (by omega), if_pos (by omega)]
    rfl
  have hj' : pyIdx s.grid.cells.length (i + 9) = some (i + 9).toNat := by
    unfold pyIdx
    rw [hg.1]
    rw [if_pos (by omega)]
  have hafter : afterOf s i = afterOf s (i + 9) := by
    unfold afterOf pySliceTo pySliceFrom
    rw [hg.1]
    rw [if_neg (by omega), if_neg (by omega), if_pos (by omega), if_pos (by omega)]
    rw [show (i + 1 + ((9 : Nat) : Int)).toNat = (i + 9 + 1).toNat from by omega,
      show (i + ((9 : Nat) : Int)).toNat = (i + 9).toNat from rfl]
  rw [make_move_to_some s i _ hj, make_move_to_some s (i + 9) _ hj', hafter]
  split_ifs <;> simp [Except.map]

/-! ## The claims -/

/-- C1: the claim states that `Mark.other` is the total complement involution
(`other(CROSS) = NAUGHT`, `other(NAUGHT) = CROSS`).  The code instead returns
`NAUGHT` in both branches: `other(NAUGHT)` evaluates to `NAUGHT`, never to
`CROSS` — the one-line defect the spec itself flags as a bug in §9. -/
theorem c1_mark_other_defect :
    Mark.other Mark.NAUGHT = Mark.NAUGHT ∧ Mark.other Mark.CROSS = Mark.NAUGHT :=
  ⟨rfl, rfl⟩

/-- C2: the claim states that `current_mark` returns the opposite of
`starting_mark` whenever the counts differ, for both starting marks.  On the
valid position `"O........"` with `starting_mark = NAUGHT` the counts differ,
yet the code returns `NAUGHT` — the starting mark itself, not its opposite —
because of the `Mark.other` defect. -/
theorem c2_current_mark_defect :
    validGrid oBoard.grid ∧ validGameState oBoard ∧
    oBoard.grid.x_count ≠ oBoard.grid.o_count ∧
    oBoard.current_mark = Mark.NAUGHT ∧ oBoard.starting_mark = Mark.NAUGHT := by
  refine ⟨by decide, by decide, by decide, by decide, rfl⟩

/-- Witness for C3 at the concrete winning position `"XXXOO...."`. -/
theorem c3_winner_iff_winning_line_witness :
    validGrid winX.grid ∧ validGameState winX ∧
    (winX.winner = some Mark.CROSS ↔ winsAnyLine winX.grid.cells Mark.CROSS) :=
  ⟨by decide, by decide, c3_winner_iff_winning_line winX (by decide) (by decide) Mark.CROSS⟩

/-- C4: the claim states that a non-terminal position always yields one move
per empty cell (`len(possible_moves()) == empty_count()`).  On the valid,
non-terminal position `"O........"` with `starting_mark = NAUGHT`
(8 empty cells), `possible_moves` instead propagates an `InvalidPosition`
error: the `Mark.other` defect makes `make_move_to` place a second `O`, and
the resulting board `"OO......."` violates the mark-count invariant. -/
theorem c4_possible_moves_raises :
    validGrid oBoard.grid ∧ validGameState oBoard ∧
    oBoard.game_over = false ∧ oBoard.grid.empty_count = 8 ∧
    oBoard.possible_moves = Except.error Err.invalidPosition := by
  refine ⟨by decide, by decide, by decide, by decide, by decide⟩

/-- C5: for every position (terminal or not) and in-range index,
`make_move_to` raises `InvalidMove` exactly when the target cell is not
empty; being terminal does not by itself trigger `InvalidMove`. -/
theorem c5_invalid_move_iff_occupied (s : GameState) (i : Int) (hg : validGrid s.grid)
    (h0 : 0 ≤ i) (h9 : i < 9) :
    (s.make_move_to i = Except.error Err.invalidMove ↔
      s.grid.cells.getD i.toNat ' ' ≠ ' ') :=
  make_move_invalidMove_iff s i hg h0 h9

/-- Witness for C5 at the terminal position `"XXXOO...."`, whose cell 0 is
occupied: the call still runs and reports `InvalidMove`. -/
theorem c5_invalid_move_iff_occupied_witness :
    validGrid winX.grid ∧ winX.game_over = true ∧
    winX.make_move_to 0 = Except.error Err.invalidMove :=
  ⟨by decide, by decide,
    (c5_invalid_move_iff_occupied winX 0 (by decide) (by decide) (by decide)).mpr (by decide)⟩

/-- Counterexample to C6 as stated: `-9` lies outside `[0, 9)`, yet
`make_move_to` raises no index error on the empty board — it returns a
regular `Move` on cell 0 (recording `cell_index = -9`). -/
theorem c6_counterexample :
    emptyX.make_move_to (-9) = Except.ok
      { mark := Mark.CROSS, cell_index := -9, before_state := emptyX,
        after_state := ⟨⟨['X',' ',' ',' ',' ',' ',' ',' ',' ']⟩, Mark.CROSS⟩ } := by
  decide

/-- Witness for C6 (amended) at index 9 on the empty board. -/
theorem c6_index_error_out_of_bounds_witness :
    emptyX.make_move_to 9 = Except.error Err.indexError :=
  c6_index_error_out_of_bounds emptyX 9 (by decide) (Or.inl (by decide))

/-- Counterexample to C7 as stated: on the valid position `"XXXOO...."`
(`X` already winning) cell 5 is empty, yet `make_move_to 5` does not return a
Move — the after state would complete a line for both marks, so its
construction fails with `InvalidPosition`. -/
theorem c7_counterexample :
    validGrid winX.grid ∧ validGameState winX ∧
    winX.grid.cells.getD 5 ' ' = ' ' ∧
    winX.make_move_to 5 = Except.error Err.invalidPosition := by
  refine ⟨by decide, by decide, by decide, by decide⟩

/-- C7 (amended): for every position and empty in-range cell, provided the
resulting position satisfies the construction invariants, `make_move_to`
returns the Move whose mark is `current_mark`, whose cell index is the given
one, whose before state is the original (left untouched — the embedding is
pure), and whose after state keeps `starting_mark` and differs from the
original board only at the target index, which now holds `current_mark`. -/
theorem c7_make_move_success_frame (s : GameState) (i : Int) (hg : validGrid s.grid)
    (h0 : 0 ≤ i) (h9 : i < 9)
    (he : s.grid.cells.getD i.toNat ' ' = ' ')
    (hv : validGameState ⟨⟨s.grid.cells.set i.toNat s.current_mark.char⟩, s.starting_mark⟩) :
    s.make_move_to i = Except.ok
      { mark := s.current_mark, cell_index := i, before_state := s,
        after_state := ⟨⟨s.grid.cells.set i.toNat s.current_mark.char⟩, s.starting_mark⟩ } ∧
    (s.grid.cells.set i.toNat s.current_mark.char).getD i.toNat ' ' = s.current_mark.char ∧
    ∀ j : Nat, j ≠ i.toNat →
      (s.grid.cells.set i.toNat s.current_mark.char).getD j ' ' = s.grid.cells.getD j ' ' := by
  refine ⟨make_move_success s i hg h0 h9 he hv, ?_, ?_⟩
  · have hlt : i.toNat < s.grid.cells.length := by rw [hg.1]; omega
    simp [List.getD_eq_getElem?_getD, List.getElem?_set_self hlt]
  · intro j hj
    simp [List.getD_eq_getElem?_getD, List.getElem?_set_ne (Ne.symm hj)]

/-- Witness for C7 (amended): the first move on the empty board. -/
theorem c7_make_move_success_frame_witness :
    emptyX.make_move_to 0 = Except.ok
      { mark := emptyX.current_mark, cell_index := 0, before_state := emptyX,
        after_state := ⟨⟨emptyX.grid.cells.set (0 : Int).toNat emptyX.current_mark.char⟩,
          emptyX.starting_mark⟩ } ∧
    (emptyX.grid.cells.set (0 : Int).toNat emptyX.current_mark.char).getD (0 : Int).toNat ' '
      = emptyX.current_mark.char ∧
    ∀ j : Nat, j ≠ (0 : Int).toNat →
      (emptyX.grid.cells.set (0 : Int).toNat emptyX.current_mark.char).getD j ' '
        = emptyX.grid.cells.getD j ' ' :=
  c7_make_move_success_frame emptyX 0 (by decide) (by decide) (by decide) (by decide) (by decide)

/-- Witness for C9 at the concrete winning position `"XXXOO...."`. -/
theorem c9_winning_cells_first_line_witness :
    (winX.winning_cells = [] ↔ winX.winner = none) ∧
    ∀ m, winX.winner = some m →
      List.Sorted (fun a b => a < b) winX.winning_cells ∧
      (∀ j ∈ winX.winning_cells, winX.grid.cells.getD j ' ' = m.char) ∧
      ∃ pre post, LINES = pre ++ winX.winning_cells :: post ∧
        ∀ L ∈ pre, ∀ m' : Mark, ¬(∀ j ∈ L, winX.grid.cells.getD j ' ' = m'.char) :=
  c9_winning_cells_first_line winX (by decide)

/-- Counterexample to C10 as stated: on the valid position `"O........"`
with `starting_mark = NAUGHT`, cell `-8 + 9 = 1` is empty, yet
`make_move_to (-8)` does not return a Move — the `Mark.other` defect makes
the after state fail validation, so the call errors with `InvalidPosition`
(exactly as `make_move_to 1` does). -/
theorem c10_counterexample :
    validGrid oBoard.grid ∧ validGameState oBoard ∧
    oBoard.grid.cells.getD 1 ' ' = ' ' ∧
    oBoard.make_move_to (-8) = Except.error Err.invalidPosition := by
  refine ⟨by decide, by decide, by decide, by decide⟩

/-- C10 (amended): for `-9 ≤ i ≤ -2`, `make_move_to i` raises no index error
and produces exactly the outcome of `make_move_to (i + 9)` — the same Move
(with the recorded `cell_index` field keeping the negative value `i`) or the
same error — and it raises `InvalidMove` exactly when cell `i + 9` is
occupied. -/
theorem c10_negative_index_wraps (s : GameState) (i : Int) (hg : validGrid s.grid)
    (hlo : -9 ≤ i) (hhi : i ≤ -2) :
    s.make_move_to i = (s.make_move_to (i + 9)).map
      (fun mv => { mv with cell_index := i }) ∧
    (s.make_move_to i = Except.error Err.invalidMove ↔
      s.grid.cells.getD (i + 9).toNat ' ' ≠ ' ') := by
  have hmap := make_move_neg_index s i hg hlo hhi
  refine ⟨hmap, ?_⟩
  rw [hmap, ← make_move_invalidMove_iff s (i + 9) hg (by omega) (by omega)]
  cases h : s.make_move_to (i + 9) <;> simp [Except.map, h]

/-- Witness for C10 (amended) at index `-9` on the empty board. -/
theorem c10_negative_index_wraps_witness :
    emptyX.make_move_to (-9) = (emptyX.make_move_to (-9 + 9)).map
      (fun mv => { mv with cell_index := (-9 : Int) }) ∧
    (emptyX.make_move_to (-9) = Except.error Err.invalidMove ↔
      emptyX.grid.cells.getD ((-9 : Int) + 9).toNat ' ' ≠ ' ') :=
  c10_negative_index_wraps emptyX (-9) (by decide) (by decide) (by decide)

end TicTac
